import Mathlib

/-!
Verification of the Sona Mang multiplayer word-game server core.

The development shallowly embeds the server's session engine
(`server/src/game-session.ts`, `server/src/lobby-manager.ts`,
`server/src/game-logic.ts`, `server/src/types.ts` and
`shared/protocol.ts`) into Lean:

* JavaScript `Map<string, Player>` (insertion ordered) becomes a
  `List Player` keyed by `Player.id`; `Map.set` replaces in place or
  appends, `Map.delete` filters, iteration is list order.
* JavaScript `Set<string>` becomes `Finset String`.
* Wall-clock instants (`Date.now()`, milliseconds) and durations
  (seconds) are rationals.
* The random combo generator (`generateNewCombo`) and the clock are
  sources of nondeterminism: each operation that consults them takes the
  freshly drawn combo / the current instant as an explicit argument.
* The module-level dictionary `wordSet` of `game-logic.ts` is passed as
  an explicit `Finset String` parameter.
* Outbound traffic is returned as a list of `Broadcast` values
  (recipient ids plus message) instead of being written to sockets; the
  `ws.readyState === OPEN` guard of `broadcastToGame` is dropped, the
  recipient list records every player the loop visits.
-/

namespace SonaMang

/-- Player lifecycle states, from `shared/protocol.ts` `PlayerState`. -/
inductive PlayerState where
  | CONNECTED
  | READY
  | ALIVE
  | ELIMINATED
  | DISCONNECTED
deriving DecidableEq, Repr

/-- Session phases, from `shared/protocol.ts` `GamePhase`. -/
inductive GamePhase where
  | LOBBY
  | PLAYING
  | GAME_OVER
deriving DecidableEq, Repr

/-- Turn outcomes, from `shared/protocol.ts` `TurnResult`. -/
inductive TurnResult where
  | CORRECT
  | WRONG
  | ALREADY_USED
  | TIMEOUT
deriving DecidableEq, Repr

def MAX_PLAYERS : Nat := 8

def MIN_PLAYERS : Nat := 2

def DEFAULT_LIVES : Int := 3

def DEFAULT_TURN_DURATION : ℚ := 10

/-- One roster entry, from `server/src/types.ts` `Player` (the raw
`ws` socket handle is abstracted away). -/
structure Player where
  id : String
  name : String
  state : PlayerState
  lives : Int
  score : Int
  isHost : Bool
  currentInput : String
deriving DecidableEq, Repr

/-- `createPlayer` of `server/src/types.ts`. -/
def createPlayer (id name : String) (isHost : Bool) : Player :=
  { id := id
    name := name
    state := PlayerState.CONNECTED
    lives := DEFAULT_LIVES
    score := 0
    isHost := isHost
    currentInput := "" }

/-- Server-to-client messages used by the session engine, from
`shared/protocol.ts` (fields not needed by any session operation are
omitted; `GAME_OVER`'s randomly sampled example words are dropped). -/
inductive ServerMessage where
  | PLAYER_LIST (players : List Player) (hostId : String)
  | GAME_START (firstPlayerId : String) (turnDuration : ℚ) (combo : String)
  | TURN_START (playerId : String) (duration : ℚ)
  | TURN_INPUT (playerId : String) (input : String)
  | TURN_RESULT (playerId : String) (result : TurnResult) (nextPlayerId : String)
      (newCombo : String) (word : String) (remainingTime : Option ℚ)
  | PLAYER_UPDATE (playerId : String) (lives : Int) (score : Int) (state : PlayerState)
  | PLAYER_ELIMINATED (playerId : String)
  | GAME_OVER (winnerId : Option String)
deriving DecidableEq, Repr

/-- One call to `broadcastToGame`: the players the send loop visits and
the message sent to them. -/
structure Broadcast where
  recipients : List String
  message : ServerMessage
deriving DecidableEq, Repr

/-- `broadcastToGame` of `server/src/messages.ts`: sends one message to
every player in the map (the per-socket `readyState` check is dropped;
the recipient list records every player the loop visits). -/
def broadcastToGame (players : List Player) (m : ServerMessage) : Broadcast :=
  { recipients := players.map (fun p => p.id), message := m }

/-- The per-session state, from `server/src/types.ts` `GameState`
together with the `GameSession` private fields `tickInterval`
(`timerRunning`) and `turnStartTime`. -/
structure Session where
  id : String
  name : String
  phase : GamePhase
  players : List Player
  hostId : String
  currentCombo : String
  currentTurnPlayerId : String
  turnTimer : ℚ
  turnDuration : ℚ
  usedWords : Finset String
  comboChangePerRound : Bool
  roundStartPlayerId : String
  failedCombos : Finset String
  timerRunning : Bool
  turnStartTime : ℚ
deriving DecidableEq

/-- The `GameSession` constructor of `server/src/game-session.ts`. -/
def GameSession.new (id name hostId : String) : Session :=
  { id := id
    name := name
    phase := GamePhase.LOBBY
    players := []
    hostId := hostId
    currentCombo := ""
    currentTurnPlayerId := ""
    turnTimer := DEFAULT_TURN_DURATION
    turnDuration := DEFAULT_TURN_DURATION
    usedWords := ∅
    comboChangePerRound := true
    roundStartPlayerId := ""
    failedCombos := ∅
    timerRunning := false
    turnStartTime := 0 }

/-- `this.state.players.get(pid)` on the insertion-ordered map. -/
def findPlayer (s : Session) (pid : String) : Option Player :=
  s.players.find? (fun p => p.id == pid)

/-- In-place mutation of the map entry keyed `pid` (JavaScript mutates
the `Player` object held in the `Map`). -/
def updatePlayer (players : List Player) (pid : String) (f : Player → Player) :
    List Player :=
  players.map (fun p => if p.id = pid then f p else p)

/-- `Map.set(id, player)`: replace the entry in place if the key exists,
otherwise append preserving insertion order. -/
def mapSet (players : List Player) (q : Player) : List Player :=
  if players.any (fun p => p.id == q.id) then
    players.map (fun p => if p.id = q.id then q else p)
  else players ++ [q]

/-- Leading-match test on character lists: the needle occurs at the
very start of the haystack. -/
def charsLeading : List Char → List Char → Bool
  | [], _ => true
  | _ :: _, [] => false
  | a :: as, b :: bs => a == b && charsLeading as bs

/-- Occurrence of the needle at some position of the haystack. -/
def charsContain (needle : List Char) : List Char → Bool
  | [] => needle.isEmpty
  | c :: cs => charsLeading needle (c :: cs) || charsContain needle cs

/-- JavaScript `hay.includes(needle)` on strings: the needle occurs as
a contiguous substring of the haystack. -/
def strIncludes (hay needle : String) : Bool :=
  charsContain needle.data hay.data

/-- JavaScript `w.toUpperCase()` (character-wise case folding, written
over the character list so that terms evaluate by kernel reduction). -/
def strToUpper (w : String) : String :=
  ⟨w.data.map Char.toUpper⟩

/-- `validateWord` of `server/src/game-logic.ts`; the module-level
dictionary `wordSet` is passed explicitly. -/
def validateWord (wordSet : Finset String) (word : String) (currentCombo : String)
    (usedWords : Finset String) : TurnResult :=
  if word = "" then TurnResult.WRONG
  else
    let upperWord := strToUpper word
    if upperWord ∈ usedWords then TurnResult.ALREADY_USED
    else if ¬ strIncludes upperWord (strToUpper currentCombo) then TurnResult.WRONG
    else if upperWord ∉ wordSet then TurnResult.WRONG
    else TurnResult.CORRECT

/-- `GameSession.addPlayer`. -/
def addPlayer (s : Session) (id name : String) : Option Player × Session :=
  if MAX_PLAYERS ≤ s.players.length then (none, s)
  else if s.phase ≠ GamePhase.LOBBY then (none, s)
  else
    let isHost := s.players.length = 0
    let player := createPlayer id name isHost
    (some player,
      { s with
        players := mapSet s.players player
        hostId := if isHost then id else s.hostId })

/-- `GameSession.getPlayersInfo` followed by `broadcastPlayerList`. -/
def broadcastPlayerList (s : Session) : Broadcast :=
  broadcastToGame s.players (ServerMessage.PLAYER_LIST s.players s.hostId)

/-- ALIVE players in map iteration order. -/
def alivePlayers (s : Session) : List Player :=
  s.players.filter (fun p => p.state == PlayerState.ALIVE)

/-- Number of ALIVE players, the `aliveCount` loop of
`checkWinCondition`. -/
def aliveCount (s : Session) : Nat :=
  (alivePlayers s).length

/-- The `lastAlivePlayer` computed by `checkWinCondition`: the last
ALIVE player in map iteration order. -/
def lastAlivePlayer (s : Session) : Option Player :=
  (alivePlayers s).getLast?

/-- `GameSession.endGame`: stop the timer, move to GAME_OVER, announce
the winner (the randomly sampled example words for failed combos are
not modelled in the message). -/
def endGame (s : Session) (winnerId : Option String) : Session × List Broadcast :=
  let s1 := { s with timerRunning := false, phase := GamePhase.GAME_OVER }
  (s1, [broadcastToGame s1.players (ServerMessage.GAME_OVER winnerId)])

/-- `GameSession.checkWinCondition`; the `Bool` is its return value.
`lastAlivePlayer?.id || null` maps an empty-string id to `null` via
JavaScript falsiness. -/
def checkWinCondition (s : Session) : Bool × Session × List Broadcast :=
  if s.players.length = 1 ∧ aliveCount s = 0 then
    (true, endGame s none)
  else if 1 < s.players.length ∧ aliveCount s ≤ 1 then
    let winnerId :=
      match lastAlivePlayer s with
      | none => none
      | some p => if p.id = "" then none else some p.id
    (true, endGame s winnerId)
  else (false, s, [])

/-- Index the round-robin scan of `advanceToNextPlayer` starts from:
`(indexOf(current) + 1) % length`, with JavaScript `indexOf` returning
`-1` (hence a start of `0`) when the current id is absent. -/
def advanceStart (s : Session) : Nat :=
  let playerIds := s.players.map (fun p => p.id)
  if playerIds.contains s.currentTurnPlayerId then
    (playerIds.indexOf s.currentTurnPlayerId + 1) % playerIds.length
  else 0

/-- The `while` loop of `advanceToNextPlayer`: at most `length` probes
from `start`, wrapping, returning the first id whose map entry is
ALIVE. -/
def nextAliveScan (s : Session) (start : Nat) : Option String :=
  let playerIds := s.players.map (fun p => p.id)
  (List.range playerIds.length).findSome? (fun k =>
    match playerIds.get? ((start + k) % playerIds.length) with
    | none => none
    | some pid =>
      match s.players.find? (fun p => p.id == pid) with
      | none => none
      | some p => if p.state = PlayerState.ALIVE then some pid else none)

/-- `GameSession.advanceToNextPlayer(mayChangeCombo)`; the combo that
`generateNewCombo()` would draw is the `newCombo` argument. -/
def advanceToNextPlayer (s : Session) (mayChangeCombo : Bool) (newCombo : String) :
    Session :=
  if s.players.length = 0 then s
  else
    match nextAliveScan s (advanceStart s) with
    | none => s
    | some nextPlayerId =>
      let roundStartAlive :=
        match s.players.find? (fun p => p.id == s.roundStartPlayerId) with
        | none => false
        | some rp => rp.state = PlayerState.ALIVE
      let rs1 := if roundStartAlive then s.roundStartPlayerId else nextPlayerId
      let change := mayChangeCombo ∨ nextPlayerId = rs1
      { s with
        currentCombo := if change then newCombo else s.currentCombo
        roundStartPlayerId := if change then nextPlayerId else rs1
        currentTurnPlayerId := nextPlayerId
        turnTimer := s.turnDuration
        players := updatePlayer s.players nextPlayerId
          (fun p => { p with currentInput := "" }) }

/-- `GameSession.startTurnTimer` at instant `now`: stop any previous
timer, record the turn start timestamp, reset the countdown, announce
TURN_START, arm the tick interval. -/
def startTurnTimer (s : Session) (now : ℚ) : Session × List Broadcast :=
  let s1 :=
    { s with timerRunning := true, turnStartTime := now, turnTimer := s.turnDuration }
  (s1, [broadcastToGame s1.players
          (ServerMessage.TURN_START s1.currentTurnPlayerId s1.turnDuration)])

/-- Tail of `GameSession.processTurnResult` after the `switch`: the
PLAYER_UPDATE and TURN_RESULT broadcasts, the win check, and (when the
game goes on) the next turn timer. -/
def finishTurn (s1 : Session) (branchMsgs : List Broadcast) (player : Player)
    (result : TurnResult) (word : String) (now : ℚ) : Session × List Broadcast :=
  let updMsgs :=
    match s1.players.find? (fun p => p.id == player.id) with
    | some p =>
      [broadcastToGame s1.players
        (ServerMessage.PLAYER_UPDATE p.id p.lives p.score p.state)]
    | none => []
  let resMsg :=
    broadcastToGame s1.players
      (ServerMessage.TURN_RESULT player.id result s1.currentTurnPlayerId
        s1.currentCombo word none)
  let win := checkWinCondition s1
  if win.1 then (win.2.1, branchMsgs ++ updMsgs ++ [resMsg] ++ win.2.2)
  else
    let timer := startTurnTimer win.2.1 now
    (timer.1, branchMsgs ++ updMsgs ++ [resMsg] ++ win.2.2 ++ timer.2)

/-- The in-place mutation the TIMEOUT case of `processTurnResult`
applies to the current player: decrement lives, eliminate at `<= 0`,
clear the transient input. -/
def timeoutMutation (p : Player) : Player :=
  let p1 := { p with lives := p.lives - 1 }
  let p2 :=
    if p1.lives ≤ (0 : Int) then { p1 with state := PlayerState.ELIMINATED }
    else p1
  { p2 with currentInput := "" }

/-- Session state after the TIMEOUT bookkeeping of `processTurnResult`
(timer stopped, failed combo recorded, the current player mutated in
place) and before the turn advance. -/
def timeoutMid (s : Session) (p : Player) : Session :=
  { s with
    timerRunning := false
    failedCombos := insert s.currentCombo s.failedCombos
    players := updatePlayer s.players p.id timeoutMutation }

/-- `GameSession.processTurnResult(player, result, word)`; `newCombo`
is the combo a `generateNewCombo()` call inside `advanceToNextPlayer`
would draw, `now` the instant the next turn timer would start. -/
def processTurnResult (s : Session) (player : Player) (result : TurnResult)
    (word newCombo : String) (now : ℚ) : Session × List Broadcast :=
  let s0 := { s with timerRunning := false }
  match result with
  | TurnResult.CORRECT =>
    let sMid :=
      { s0 with
        players := updatePlayer s0.players player.id
          (fun p => { p with score := p.score + 1, currentInput := "" })
        usedWords := insert (strToUpper word) s0.usedWords }
    finishTurn (advanceToNextPlayer sMid true newCombo) [] player result word now
  | TurnResult.TIMEOUT =>
    let sMid :=
      { s0 with
        failedCombos := insert s0.currentCombo s0.failedCombos
        players := updatePlayer s0.players player.id timeoutMutation }
    let elimMsgs :=
      if player.lives - 1 ≤ 0 then
        [broadcastToGame sMid.players (ServerMessage.PLAYER_ELIMINATED player.id)]
      else []
    finishTurn (advanceToNextPlayer sMid false newCombo) elimMsgs player result word now
  | _ => finishTurn s0 [] player result word now

/-- `GameSession.handleTurnSubmit(playerId, word)`. -/
def handleTurnSubmit (wordSet : Finset String) (s : Session) (pid word : String)
    (newCombo : String) (now : ℚ) : Session × List Broadcast :=
  if s.phase ≠ GamePhase.PLAYING then (s, [])
  else if pid ≠ s.currentTurnPlayerId then (s, [])
  else
    match findPlayer s pid with
    | none => (s, [])
    | some player =>
      if player.state ≠ PlayerState.ALIVE then (s, [])
      else
        let result := validateWord wordSet word s.currentCombo s.usedWords
        if result = TurnResult.WRONG ∨ result = TurnResult.ALREADY_USED then
          let elapsed := (now - s.turnStartTime) / 1000
          let remaining := max 0 (s.turnDuration - elapsed)
          (s, [broadcastToGame s.players
                (ServerMessage.TURN_RESULT player.id result player.id
                  s.currentCombo word (some remaining))])
        else processTurnResult s player result word newCombo now

/-- `GameSession.handleTimeout` (fired by the tick interval): stop the
timer first, then process a TIMEOUT for the current player. -/
def handleTimeout (s : Session) (newCombo : String) (now : ℚ) :
    Session × List Broadcast :=
  let s0 := { s with timerRunning := false }
  match findPlayer s0 s0.currentTurnPlayerId with
  | none => (s0, [])
  | some player => processTurnResult s0 player TurnResult.TIMEOUT "" newCombo now

/-- `GameSession.handleTurnInput(playerId, input)`. -/
def handleTurnInput (s : Session) (pid input : String) : Session × List Broadcast :=
  if s.phase ≠ GamePhase.PLAYING then (s, [])
  else if pid ≠ s.currentTurnPlayerId then (s, [])
  else
    match findPlayer s pid with
    | none => (s, [])
    | some player =>
      if player.state ≠ PlayerState.ALIVE then (s, [])
      else
        let s1 :=
          { s with
            players := updatePlayer s.players pid
              (fun p => { p with currentInput := input }) }
        (s1, [broadcastToGame s1.players (ServerMessage.TURN_INPUT pid input)])

/-- `GameSession.setPlayerReady`. -/
def setPlayerReady (s : Session) (pid : String) (ready : Bool) :
    Session × List Broadcast :=
  match findPlayer s pid with
  | none => (s, [])
  | some _ =>
    let s1 :=
      { s with
        players := updatePlayer s.players pid
          (fun p =>
            { p with
              state := if ready then PlayerState.READY else PlayerState.CONNECTED }) }
    (s1, [broadcastPlayerList s1])

/-- `GameSession.canStartGame`. -/
def canStartGame (s : Session) : Bool :=
  MIN_PLAYERS ≤ (s.players.filter (fun p => p.state == PlayerState.READY)).length

/-- The in-place mutation `startGame` applies to every READY player. -/
def startMutation (p : Player) : Player :=
  if p.state = PlayerState.READY then
    { p with
      state := PlayerState.ALIVE
      lives := DEFAULT_LIVES
      score := 0
      currentInput := "" }
  else p

/-- `GameSession.startGame`; `combo` is the draw of `generateNewCombo()`
and `now` the instant the first turn timer starts. The `Bool` is the
return value. -/
def startGame (s : Session) (combo : String) (now : ℚ) :
    Bool × Session × List Broadcast :=
  if ¬ canStartGame s then (false, s, [])
  else
    let players1 := s.players.map startMutation
    let s1 :=
      { s with
        players := players1
        usedWords := ∅
        failedCombos := ∅
        phase := GamePhase.PLAYING
        currentCombo := combo
        turnTimer := s.turnDuration }
    let s2 :=
      match players1.find? (fun p => p.state == PlayerState.ALIVE) with
      | some p => { s1 with currentTurnPlayerId := p.id, roundStartPlayerId := p.id }
      | none => s1
    let gsMsg :=
      broadcastToGame s2.players
        (ServerMessage.GAME_START s2.currentTurnPlayerId s2.turnDuration s2.currentCombo)
    let timer := startTurnTimer s2 now
    (true, timer.1, [gsMsg] ++ timer.2)

/-- `GameSession.removePlayer(playerId)`; `newCombo` is the draw a combo
rotation inside the forced advance would make. -/
def removePlayer (s : Session) (pid : String) (newCombo : String) :
    Session × List Broadcast :=
  match findPlayer s pid with
  | none => (s, [])
  | some player =>
    let s1 := { s with players := s.players.filter (fun p => ¬ (p.id == pid)) }
    let s2 :=
      if player.isHost ∧ 0 < s1.players.length then
        match s1.players.head? with
        | some newHost =>
          { s1 with
            players := updatePlayer s1.players newHost.id
              (fun p => { p with isHost := true })
            hostId := newHost.id }
        | none => s1
      else s1
    let afterWin :=
      if s2.phase = GamePhase.PLAYING then
        let s3 :=
          if s2.currentTurnPlayerId = pid then advanceToNextPlayer s2 false newCombo
          else s2
        let win := checkWinCondition s3
        (win.2.1, win.2.2)
      else (s2, [])
    (afterWin.1, afterWin.2 ++ [broadcastPlayerList afterWin.1])

/-- `GameSession.returnToLobby`. -/
def returnToLobby (s : Session) : Session × List Broadcast :=
  let s1 :=
    { s with
      timerRunning := false
      phase := GamePhase.LOBBY
      usedWords := ∅
      currentCombo := ""
      currentTurnPlayerId := ""
      roundStartPlayerId := ""
      players := s.players.map (fun p =>
        { p with
          state := PlayerState.CONNECTED
          lives := DEFAULT_LIVES
          score := 0
          currentInput := "" }) }
  (s1, [broadcastPlayerList s1])

/-- `GameSession.cleanup`. -/
def cleanup (s : Session) : Session :=
  { s with timerRunning := false }

/-- `GameSession.setComboChangePerRound`. -/
def setComboChangePerRound (s : Session) (enabled : Bool) : Session :=
  { s with comboChangePerRound := enabled }

/-- One registered transport, from `server/src/lobby-manager.ts`
`ClientInfo` (the transport is identified by its registered player
id). -/
structure ClientInfo where
  playerId : String
  gameId : Option String
deriving DecidableEq

/-- The `LobbyManager` registry state. -/
structure LobbyManager where
  games : List (String × Session)
  clients : List ClientInfo
deriving DecidableEq

/-- The `{ success, reason }` results of `LobbyManager.joinGame`. -/
inductive JoinOutcome where
  | success
  | notRegistered
  | gameNotFound
  | gameAlreadyStarted
  | gameFull
  | failedToJoin
deriving DecidableEq, Repr

/-- `LobbyManager.joinGame(ws, gameId, playerName)`, the transport
identified by its registered player id `clientPid`. -/
def joinGame (lm : LobbyManager) (clientPid gameId playerName : String) :
    JoinOutcome × LobbyManager :=
  match lm.clients.find? (fun c => c.playerId == clientPid) with
  | none => (JoinOutcome.notRegistered, lm)
  | some _ =>
    match lm.games.lookup gameId with
    | none => (JoinOutcome.gameNotFound, lm)
    | some game =>
      if game.phase ≠ GamePhase.LOBBY then (JoinOutcome.gameAlreadyStarted, lm)
      else if MAX_PLAYERS ≤ game.players.length then (JoinOutcome.gameFull, lm)
      else
        match addPlayer game clientPid playerName with
        | (none, _) => (JoinOutcome.failedToJoin, lm)
        | (some _, game1) =>
          (JoinOutcome.success,
            { lm with
              games := lm.games.map (fun gg => if gg.1 == gameId then (gg.1, game1) else gg)
              clients := lm.clients.map (fun c =>
                if c.playerId == clientPid then { c with gameId := some gameId } else c) })

/-- The ordered rule chain exactly as the specification words it
(spec §4.1, `validate(word, combo, usedWords)`), written independently
of `validateWord` so that C5 can be stated as a refinement. -/
def validateWordSpecChain (dictionary : Finset String) (word combo : String)
    (usedWords : Finset String) : TurnResult :=
  if word = "" then TurnResult.WRONG
  else if strToUpper word ∈ usedWords then TurnResult.ALREADY_USED
  else if ¬ strIncludes (strToUpper word) (strToUpper combo) then TurnResult.WRONG
  else if strToUpper word ∉ dictionary then TurnResult.WRONG
  else TurnResult.CORRECT

/-- Holds when the tracked round-start player is absent from the roster
or no longer ALIVE (the reassignment condition inside
`advanceToNextPlayer`). -/
def roundStartGone (s : Session) : Bool :=
  match s.players.find? (fun p => p.id == s.roundStartPlayerId) with
  | none => true
  | some rp => rp.state ≠ PlayerState.ALIVE

/-- Key list of the players map. -/
def playerIdList (players : List Player) : List String :=
  players.map (fun p => p.id)

/-- One externally reachable mutation of a single session, each
constructor applying the corresponding engine operation at arbitrary
inputs (arbitrary drawn combos and clock instants model the random
generator and the timer). `handleTimeout` fires only while the tick
interval is armed. -/
inductive Step (wordSet : Finset String) : Session → Session → Prop where
  | addPlayer (s : Session) (id name : String) :
      Step wordSet s (addPlayer s id name).2
  | removePlayer (s : Session) (pid newCombo : String) :
      Step wordSet s (removePlayer s pid newCombo).1
  | setPlayerReady (s : Session) (pid : String) (ready : Bool) :
      Step wordSet s (setPlayerReady s pid ready).1
  | startGame (s : Session) (combo : String) (now : ℚ) :
      Step wordSet s (startGame s combo now).2.1
  | handleTurnInput (s : Session) (pid input : String) :
      Step wordSet s (handleTurnInput s pid input).1
  | handleTurnSubmit (s : Session) (pid word newCombo : String) (now : ℚ) :
      Step wordSet s (handleTurnSubmit wordSet s pid word newCombo now).1
  | handleTimeout (s : Session) (newCombo : String) (now : ℚ)
      (ht : s.timerRunning = true) :
      Step wordSet s (handleTimeout s newCombo now).1
  | returnToLobby (s : Session) :
      Step wordSet s (returnToLobby s).1
  | cleanup (s : Session) :
      Step wordSet s (cleanup s)
  | setComboChangePerRound (s : Session) (b : Bool) :
      Step wordSet s (setComboChangePerRound s b)

/-- Session states reachable from a freshly constructed `GameSession`
through the engine's operations. -/
inductive Reachable (wordSet : Finset String) : Session → Prop where
  | init (id name hostId : String) :
      Reachable wordSet (GameSession.new id name hostId)
  | step (s s' : Session) :
      Reachable wordSet s → Step wordSet s s' → Reachable wordSet s'

/-- Lives-related state invariant: ALIVE players hold at least one
life, and no player's lives are negative. -/
def LivesInv (s : Session) : Prop :=
  ∀ p ∈ s.players, (p.state = PlayerState.ALIVE → 1 ≤ p.lives) ∧ 0 ≤ p.lives

/-- While the tick interval is armed, the current-turn player (the only
player `handleTimeout` can decrement) holds at least one life. -/
def TimerInv (s : Session) : Prop :=
  s.timerRunning = true →
    ∀ p ∈ s.players, p.id = s.currentTurnPlayerId → 1 ≤ p.lives

/-- Map keys are unique (a JavaScript `Map` holds one entry per id). -/
def NodupIds (s : Session) : Prop :=
  (playerIdList s.players).Nodup

/-- The inductive invariant for C9. -/
def Inv (s : Session) : Prop :=
  NodupIds s ∧ LivesInv s ∧ TimerInv s

/-- Concrete roster entry used by the example states below. -/
def mkPlayer (i : String) (st : PlayerState) (l : Int) : Player :=
  { id := i
    name := i
    state := st
    lives := l
    score := 0
    isHost := false
    currentInput := "x" }

/-- Example state for C1: the round-start player `p1` has just been
eliminated while holding the turn; `p2` and `p3` are still ALIVE and
have not yet attempted the active combo `"AB"`. -/
def exC1 : Session :=
  { GameSession.new "g" "game" "p1" with
    phase := GamePhase.PLAYING
    players :=
      [mkPlayer "p1" PlayerState.ELIMINATED 0,
       mkPlayer "p2" PlayerState.ALIVE 2,
       mkPlayer "p3" PlayerState.ALIVE 3]
    currentCombo := "AB"
    currentTurnPlayerId := "p1"
    roundStartPlayerId := "p1" }

/-- Example PLAYING state with two ALIVE players, `p1` on turn. -/
def exTwoAlive : Session :=
  { GameSession.new "g" "game" "p1" with
    phase := GamePhase.PLAYING
    players :=
      [mkPlayer "p1" PlayerState.ALIVE 3,
       mkPlayer "p2" PlayerState.ALIVE 3]
    currentCombo := "AB"
    currentTurnPlayerId := "p1"
    roundStartPlayerId := "p1"
    timerRunning := true
    turnStartTime := 2000 }

/-- Example session for C6: finished match (GAME_OVER) with spare
capacity. -/
def exC6game : Session :=
  { GameSession.new "g" "game" "h" with
    phase := GamePhase.GAME_OVER
    players := [mkPlayer "h" PlayerState.CONNECTED 3] }

/-- Example registry for C6: one GAME_OVER session with spare capacity
and one registered, unattached client. -/
def exC6 : LobbyManager :=
  { games := [("g", exC6game)]
    clients := [{ playerId := "c", gameId := none }] }

/-- Example state for C8: a PLAYING session whose two players have
toggled ready mid-match, with a nonempty used-word set. -/
def exC8 : Session :=
  { GameSession.new "g" "game" "p1" with
    phase := GamePhase.PLAYING
    players :=
      [mkPlayer "p1" PlayerState.READY 3,
       mkPlayer "p2" PlayerState.READY 3]
    usedWords := {"FOO"}
    currentTurnPlayerId := "p1"
    roundStartPlayerId := "p1" }

/-- Example state for C2's witness: two players, one already
eliminated. -/
def exC2 : Session :=
  { GameSession.new "g" "game" "p1" with
    phase := GamePhase.PLAYING
    players :=
      [mkPlayer "p1" PlayerState.ELIMINATED 0,
       mkPlayer "p2" PlayerState.ALIVE 2] }

/-- Example state for C4's witness: `p1` on turn with one life left. -/
def exC4 : Session :=
  { GameSession.new "g" "game" "p1" with
    phase := GamePhase.PLAYING
    players :=
      [mkPlayer "p1" PlayerState.ALIVE 1,
       mkPlayer "p2" PlayerState.ALIVE 3]
    currentCombo := "AB"
    currentTurnPlayerId := "p1"
    roundStartPlayerId := "p1"
    timerRunning := true }

/-- Example lobby state for C10's witness: one READY player, one
CONNECTED player who never toggled ready, one spectator. -/
def exC10 : Session :=
  { GameSession.new "g" "game" "p1" with
    players :=
      [mkPlayer "p1" PlayerState.READY 3,
       mkPlayer "p2" PlayerState.CONNECTED 2,
       mkPlayer "p3" PlayerState.READY 3] }

end SonaMang

namespace SonaMang

lemma playerIdList_map (l : List Player) (f : Player → Player)
    (hf : ∀ p, (f p).id = p.id) : playerIdList (l.map f) = playerIdList l := by
  unfold playerIdList
  rw [List.map_map]
  exact List.map_congr_left (fun p _ => hf p)

lemma playerIdList_updatePlayer (l : List Player) (pid : String) (f : Player → Player)
    (hf : ∀ p, (f p).id = p.id) :
    playerIdList (updatePlayer l pid f) = playerIdList l := by
  unfold updatePlayer
  apply playerIdList_map
  intro p
  by_cases h : p.id = pid <;> simp [h, hf]

lemma nextAliveScan_empty (s : Session) (h0 : s.players = []) (start : Nat) :
    nextAliveScan s start = none := by
  unfold nextAliveScan
  simp [h0]

/-- C5 test theorem. -/
theorem C5_validateWord_rule_chain (wordSet : Finset String) (word combo : String)
    (usedWords : Finset String) :
    validateWord wordSet word combo usedWords =
      validateWordSpecChain wordSet word combo usedWords ∧
    validateWord wordSet word combo usedWords ≠ TurnResult.TIMEOUT := by
  unfold validateWord validateWordSpecChain
  refine ⟨rfl, ?_⟩
  intro h
  by_cases h1 : word = "" <;> by_cases h2 : strToUpper word ∈ usedWords <;>
    by_cases h3 : strIncludes (strToUpper word) (strToUpper combo) <;>
      by_cases h4 : strToUpper word ∈ wordSet <;> simp_all

/-- C1 amended. -/
theorem C1_thm (s : Session) (force : Bool) (newCombo q : String)
    (hph : s.phase = GamePhase.PLAYING)
    (hq : nextAliveScan s (advanceStart s) = some q) :
    (advanceToNextPlayer s force newCombo).currentTurnPlayerId = q ∧
    (advanceToNextPlayer s force newCombo).currentCombo =
      (if force = true ∨ q = s.roundStartPlayerId ∨ roundStartGone s = true
       then newCombo else s.currentCombo) ∧
    (force = true → (advanceToNextPlayer s force newCombo).currentCombo = newCombo) := by
  have hlen : ¬ s.players.length = 0 := by
    intro h0
    rw [nextAliveScan_empty s (List.length_eq_zero.mp h0)] at hq
    exact Option.noConfusion hq
  unfold advanceToNextPlayer
  rw [if_neg hlen, hq]
  cases hfind : s.players.find? (fun p => p.id == s.roundStartPlayerId) with
  | none =>
    simp only [roundStartGone, hfind]
    by_cases hf : force = true <;> simp [hf]
  | some rp =>
    by_cases hal : rp.state = PlayerState.ALIVE
    · simp only [roundStartGone, hfind]
      by_cases hf : force = true <;>
        by_cases hqq : q = s.roundStartPlayerId <;>
          simp [hf, hqq, hal]
    · simp only [roundStartGone, hfind]
      by_cases hf : force = true <;> simp [hf, hal]

theorem C1_counterexample :
    exC1.phase = GamePhase.PLAYING ∧
    nextAliveScan exC1 (advanceStart exC1) = some "p2" ∧
    ¬ "p2" = exC1.roundStartPlayerId ∧
    (advanceToNextPlayer exC1 false "XY").currentCombo = "XY" ∧
    ¬ exC1.currentCombo = "XY" ∧
    (mkPlayer "p2" PlayerState.ALIVE 2) ∈ exC1.players ∧
    (mkPlayer "p3" PlayerState.ALIVE 3) ∈ exC1.players := by decide

theorem C1_witness :
    (advanceToNextPlayer exTwoAlive false "XY").currentTurnPlayerId = "p2" ∧
    (advanceToNextPlayer exTwoAlive false "XY").currentCombo =
      (if false = true ∨ "p2" = exTwoAlive.roundStartPlayerId ∨ roundStartGone exTwoAlive = true
       then "XY" else exTwoAlive.currentCombo) ∧
    (false = true → (advanceToNextPlayer exTwoAlive false "XY").currentCombo = "XY") :=
  C1_thm exTwoAlive false "XY" "p2" (by decide) (by decide)




theorem C7_thm (s : Session) (pid input : String) :
    (s.phase ≠ GamePhase.PLAYING → handleTurnInput s pid input = (s, [])) ∧
    (pid ≠ s.currentTurnPlayerId → handleTurnInput s pid input = (s, [])) ∧
    (findPlayer s pid = none → handleTurnInput s pid input = (s, [])) ∧
    (∀ p, findPlayer s pid = some p → p.state ≠ PlayerState.ALIVE →
      handleTurnInput s pid input = (s, [])) ∧
    (∀ p, s.phase = GamePhase.PLAYING → pid = s.currentTurnPlayerId →
      findPlayer s pid = some p → p.state = PlayerState.ALIVE →
      handleTurnInput s pid input =
        ({ s with
            players := updatePlayer s.players pid
              (fun q => { q with currentInput := input }) },
         [{ recipients := playerIdList s.players,
            message := ServerMessage.TURN_INPUT pid input }])) := by
  refine ⟨?_, ?_, ?_, ?_, ?_⟩
  · intro h
    unfold handleTurnInput
    rw [if_pos h]
  · intro h
    unfold handleTurnInput
    split_ifs with h1
    · rfl
    · rfl
  · intro h
    unfold handleTurnInput
    split_ifs with h1 h2
    · rfl
    · rfl
    · rw [h]
  · intro p hp hal
    unfold handleTurnInput
    split_ifs with h1 h2
    · rfl
    · rfl
    · rw [hp]
      simp [hal]
  · intro p hph hcur hp hal
    have hid : playerIdList (updatePlayer s.players pid
        (fun q => { q with currentInput := input })) = playerIdList s.players :=
      playerIdList_updatePlayer _ _ _ (fun q => rfl)
    unfold handleTurnInput
    split_ifs with h1 h2
    · exact absurd hph h1
    · exact absurd hcur h2
    · rw [hp]
      simp only [hal, if_pos, broadcastToGame]
      simp only [playerIdList] at hid
      rw [hid]
      simp [playerIdList]

theorem C7_counterexample :
    (handleTurnInput exTwoAlive "p1" "HEL").1 ≠ exTwoAlive ∧
    (handleTurnInput exTwoAlive "p1" "HEL").2 =
      [{ recipients := ["p1", "p2"], message := ServerMessage.TURN_INPUT "p1" "HEL" }] ∧
    "p1" ∈ ["p1", "p2"] := by decide

theorem C7_witness :
    handleTurnInput exTwoAlive "p1" "HEL" =
      ({ exTwoAlive with
          players := updatePlayer exTwoAlive.players "p1"
            (fun q => { q with currentInput := "HEL" }) },
       [{ recipients := playerIdList exTwoAlive.players,
          message := ServerMessage.TURN_INPUT "p1" "HEL" }]) :=
  (C7_thm exTwoAlive "p1" "HEL").2.2.2.2 (mkPlayer "p1" PlayerState.ALIVE 3)
    (by decide) (by decide) (by decide) (by decide)

theorem C6_thm (lm : LobbyManager) (cpid gid pname : String) (c : ClientInfo)
    (hc : lm.clients.find? (fun x => x.playerId == cpid) = some c) :
    (lm.games.lookup gid = none →
      joinGame lm cpid gid pname = (JoinOutcome.gameNotFound, lm)) ∧
    (∀ g, lm.games.lookup gid = some g → g.phase ≠ GamePhase.LOBBY →
      joinGame lm cpid gid pname = (JoinOutcome.gameAlreadyStarted, lm)) ∧
    (∀ g, lm.games.lookup gid = some g → g.phase = GamePhase.LOBBY →
      MAX_PLAYERS ≤ g.players.length →
      joinGame lm cpid gid pname = (JoinOutcome.gameFull, lm)) := by
  refine ⟨?_, ?_, ?_⟩
  · intro h
    simp [joinGame, hc, h]
  · intro g hg hph
    simp [joinGame, hc, hg, hph]
  · intro g hg hph hfull
    simp [joinGame, hc, hg, hph, hfull]

theorem C6_counterexample :
    exC6game.phase = GamePhase.GAME_OVER ∧
    exC6.games.lookup "g" = some exC6game ∧
    exC6game.players.length < MAX_PLAYERS ∧
    (joinGame exC6 "c" "g" "Bob").1 = JoinOutcome.gameAlreadyStarted ∧
    (joinGame exC6 "c" "g" "Bob").2 = exC6 := by decide

theorem C6_witness :
    joinGame exC6 "c" "g" "Bob" = (JoinOutcome.gameAlreadyStarted, exC6) :=
  (C6_thm exC6 "c" "g" "Bob" { playerId := "c", gameId := none } (by decide)).2.1
    exC6game (by decide) (by decide)



lemma advance_frame (s : Session) (b : Bool) (c : String) :
    (advanceToNextPlayer s b c).usedWords = s.usedWords ∧
    (advanceToNextPlayer s b c).failedCombos = s.failedCombos ∧
    (advanceToNextPlayer s b c).phase = s.phase ∧
    (advanceToNextPlayer s b c).timerRunning = s.timerRunning ∧
    (advanceToNextPlayer s b c).turnDuration = s.turnDuration := by
  unfold advanceToNextPlayer
  split_ifs with h1
  · exact ⟨rfl, rfl, rfl, rfl, rfl⟩
  · cases hscan : nextAliveScan s (advanceStart s) with
    | none => exact ⟨rfl, rfl, rfl, rfl, rfl⟩
    | some q => exact ⟨rfl, rfl, rfl, rfl, rfl⟩

lemma checkWin_frame (s : Session) :
    ((checkWinCondition s).2.1.players = s.players ∧
     (checkWinCondition s).2.1.currentCombo = s.currentCombo ∧
     (checkWinCondition s).2.1.currentTurnPlayerId = s.currentTurnPlayerId ∧
     (checkWinCondition s).2.1.roundStartPlayerId = s.roundStartPlayerId ∧
     (checkWinCondition s).2.1.usedWords = s.usedWords ∧
     (checkWinCondition s).2.1.failedCombos = s.failedCombos ∧
     (checkWinCondition s).2.1.turnDuration = s.turnDuration) := by
  unfold checkWinCondition endGame
  split_ifs <;> exact ⟨rfl, rfl, rfl, rfl, rfl, rfl, rfl⟩

lemma finishTurn_frame (s1 : Session) (msgs : List Broadcast) (player : Player)
    (result : TurnResult) (word : String) (now : ℚ) :
    ((finishTurn s1 msgs player result word now).1.players = s1.players ∧
     (finishTurn s1 msgs player result word now).1.currentCombo = s1.currentCombo ∧
     (finishTurn s1 msgs player result word now).1.currentTurnPlayerId =
       s1.currentTurnPlayerId ∧
     (finishTurn s1 msgs player result word now).1.roundStartPlayerId =
       s1.roundStartPlayerId ∧
     (finishTurn s1 msgs player result word now).1.usedWords = s1.usedWords ∧
     (finishTurn s1 msgs player result word now).1.failedCombos = s1.failedCombos) := by
  have hwin := checkWin_frame s1
  unfold finishTurn startTurnTimer
  dsimp only
  by_cases h1 : (checkWinCondition s1).1 = true
  · rw [if_pos h1]
    exact ⟨hwin.1, hwin.2.1, hwin.2.2.1, hwin.2.2.2.1, hwin.2.2.2.2.1, hwin.2.2.2.2.2.1⟩
  · rw [if_neg h1]
    exact ⟨hwin.1, hwin.2.1, hwin.2.2.1, hwin.2.2.2.1, hwin.2.2.2.2.1, hwin.2.2.2.2.2.1⟩

/-- C3: a WRONG or ALREADY_USED submit by the current ALIVE player
mutates nothing — the session, including `currentTurnPlayerId`,
`currentCombo`, `usedWords`, lives, score and the running timer, is
returned unchanged — and the single reply reports the remaining time
computed from elapsed wall clock, so the same player may submit
again. -/
theorem C3_thm (wordSet : Finset String) (s : Session) (pid word newCombo : String)
    (now : ℚ) (p : Player)
    (hph : s.phase = GamePhase.PLAYING) (hcur : pid = s.currentTurnPlayerId)
    (hp : findPlayer s pid = some p) (hal : p.state = PlayerState.ALIVE)
    (hres : validateWord wordSet word s.currentCombo s.usedWords = TurnResult.WRONG ∨
        validateWord wordSet word s.currentCombo s.usedWords = TurnResult.ALREADY_USED) :
    handleTurnSubmit wordSet s pid word newCombo now =
      (s, [{ recipients := playerIdList s.players,
             message := ServerMessage.TURN_RESULT p.id
               (validateWord wordSet word s.currentCombo s.usedWords) p.id
               s.currentCombo word
               (some (max 0 (s.turnDuration - (now - s.turnStartTime) / 1000))) }]) := by
  unfold handleTurnSubmit
  rw [if_neg (by simp [hph]), if_neg (by simp [hcur]), hp]
  dsimp only
  rw [if_neg (by simp [hal]), if_pos hres]
  rfl

theorem C3_witness :
    handleTurnSubmit {"KABEL"} exTwoAlive "p1" "zz" "NEW" 5000 =
      (exTwoAlive,
       [{ recipients := playerIdList exTwoAlive.players,
          message := ServerMessage.TURN_RESULT "p1"
            (validateWord {"KABEL"} "zz" exTwoAlive.currentCombo exTwoAlive.usedWords)
            "p1" exTwoAlive.currentCombo "zz"
            (some (max 0 (exTwoAlive.turnDuration -
              ((5000 : ℚ) - exTwoAlive.turnStartTime) / 1000))) }]) :=
  C3_thm {"KABEL"} exTwoAlive "p1" "zz" "NEW" 5000 (mkPlayer "p1" PlayerState.ALIVE 3)
    (by decide) (by decide) (by decide) (by decide) (Or.inl (by decide))

lemma getLast?_eq_head?_of_len_le_one {α : Type} (l : List α) (h : l.length ≤ 1) :
    l.getLast? = l.head? := by
  match l with
  | [] => rfl
  | [a] => rfl
  | a :: b :: t => simp at h

/-- C2: the win check ends the game exactly when a lone-player session
has zero ALIVE players (winner `none`) or a multi-player session has at
most one (winner: the sole ALIVE player, `none` if zero); otherwise the
session is untouched. -/
theorem C2_thm (s : Session) (hids : ∀ p ∈ s.players, p.id ≠ "") :
    (s.players.length = 1 ∧ aliveCount s = 0 →
      checkWinCondition s =
        (true, { s with timerRunning := false, phase := GamePhase.GAME_OVER },
         [{ recipients := playerIdList s.players,
            message := ServerMessage.GAME_OVER none }])) ∧
    (2 ≤ s.players.length ∧ aliveCount s ≤ 1 →
      checkWinCondition s =
        (true, { s with timerRunning := false, phase := GamePhase.GAME_OVER },
         [{ recipients := playerIdList s.players,
            message := ServerMessage.GAME_OVER
              ((alivePlayers s).head?.map (fun p => p.id)) }])) ∧
    (¬ (s.players.length = 1 ∧ aliveCount s = 0) →
     ¬ (2 ≤ s.players.length ∧ aliveCount s ≤ 1) →
      checkWinCondition s = (false, s, [])) := by
  refine ⟨?_, ?_, ?_⟩
  · rintro ⟨h1, h2⟩
    unfold checkWinCondition endGame
    rw [if_pos ⟨h1, h2⟩]
    rfl
  · rintro ⟨h1, h2⟩
    have hne : ¬ (s.players.length = 1 ∧ aliveCount s = 0) := by
      rintro ⟨hh, _⟩
      omega
    unfold checkWinCondition endGame
    rw [if_neg hne, if_pos ⟨by omega, h2⟩]
    dsimp only
    have hlen : (alivePlayers s).length ≤ 1 := h2
    cases hl : lastAlivePlayer s with
    | none =>
      have hh : (alivePlayers s).head? = none := by
        have hg : (alivePlayers s).getLast? = none := hl
        rwa [getLast?_eq_head?_of_len_le_one _ hlen] at hg
      simp [hh]
      rfl
    | some p =>
      have hg : (alivePlayers s).getLast? = some p := hl
      have hmem : p ∈ alivePlayers s := by
        rcases List.getLast?_eq_some_iff.mp hg with ⟨ys, hys⟩
        rw [hys]
        simp
      have hpid : p.id ≠ "" := hids p (List.mem_of_mem_filter hmem)
      have hh : (alivePlayers s).head? = some p := by
        rw [← getLast?_eq_head?_of_len_le_one _ hlen]
        exact hg
      simp [hh, hpid]
      rfl
  · intro hn1 hn2
    unfold checkWinCondition
    rw [if_neg hn1,
      if_neg (show ¬ (1 < s.players.length ∧ aliveCount s ≤ 1) from
        fun h => hn2 ⟨h.1, h.2⟩)]

theorem C2_witness :
    checkWinCondition exC2 =
      (true, { exC2 with timerRunning := false, phase := GamePhase.GAME_OVER },
       [{ recipients := playerIdList exC2.players,
          message := ServerMessage.GAME_OVER
            ((alivePlayers exC2).head?.map (fun p => p.id)) }]) :=
  (C2_thm exC2 (by decide)).2.1 ⟨by decide, by decide⟩

lemma playerIdList_cons (a : Player) (l : List Player) :
    playerIdList (a :: l) = a.id :: playerIdList l := rfl

lemma find?_id_map (l : List Player) (g : Player → Player)
    (hg : ∀ q, (g q).id = q.id) (pid : String) :
    (l.map g).find? (fun q => q.id == pid) = (l.find? (fun q => q.id == pid)).map g := by
  induction l with
  | nil => rfl
  | cons a l ih =>
    rw [List.map_cons]
    by_cases h : a.id = pid
    · simp [List.find?_cons, hg, h]
    · simp [List.find?_cons, hg, h, ih]

lemma find?_self_of_nodup (l : List Player) (p : Player)
    (hnd : (playerIdList l).Nodup) (hmem : p ∈ l) :
    l.find? (fun q => q.id == p.id) = some p := by
  induction l with
  | nil => cases hmem
  | cons a l ih =>
    rcases List.mem_cons.mp hmem with rfl | hmem2
    · simp [List.find?_cons]
    · by_cases h : a.id = p.id
      · exfalso
        rw [playerIdList_cons] at hnd
        have hin : p.id ∈ playerIdList l := List.mem_map_of_mem _ hmem2
        rw [← h] at hin
        exact (List.nodup_cons.mp hnd).1 hin
      · rw [playerIdList_cons] at hnd
        simp only [List.find?_cons]
        have hb : (a.id == p.id) = false := by simp [h]
        rw [hb]
        exact ih (List.nodup_cons.mp hnd).2 hmem2

lemma startMutation_id (q : Player) : (startMutation q).id = q.id := by
  unfold startMutation
  split_ifs <;> rfl

lemma canStart_of_startGame_success (s : Session) (combo : String) (now : ℚ)
    (h : (startGame s combo now).1 = true) : canStartGame s = true := by
  by_cases hcs : canStartGame s = true
  · exact hcs
  · exfalso
    unfold startGame at h
    rw [if_pos (by simp [hcs])] at h
    exact Bool.noConfusion h

lemma startGame_players (s : Session) (combo : String) (now : ℚ)
    (hcs : canStartGame s = true) :
    (startGame s combo now).2.1.players = s.players.map startMutation := by
  unfold startGame
  rw [if_neg (by simp [hcs])]
  dsimp only
  split <;> rfl

/-- C10: a player whose state is not READY when `start()` succeeds is
left entirely unchanged: its exact record (state, lives, score,
transient input) is still the roster entry for its id. -/
theorem C10_thm (s : Session) (combo : String) (now : ℚ) (p : Player)
    (hnd : (playerIdList s.players).Nodup)
    (hmem : p ∈ s.players) (hnr : p.state ≠ PlayerState.READY)
    (hsucc : (startGame s combo now).1 = true) :
    p ∈ (startGame s combo now).2.1.players ∧
    (startGame s combo now).2.1.players.find? (fun q => q.id == p.id) = some p := by
  have hcs := canStart_of_startGame_success s combo now hsucc
  have hp : startMutation p = p := by
    unfold startMutation
    rw [if_neg hnr]
  rw [startGame_players s combo now hcs]
  constructor
  · have hmm := List.mem_map_of_mem startMutation hmem
    rwa [hp] at hmm
  · rw [find?_id_map _ _ startMutation_id p.id, find?_self_of_nodup s.players p hnd hmem]
    simp [hp]

theorem C10_witness :
    (mkPlayer "p2" PlayerState.CONNECTED 2) ∈ (startGame exC10 "AB" 0).2.1.players ∧
    (startGame exC10 "AB" 0).2.1.players.find?
      (fun q => q.id == (mkPlayer "p2" PlayerState.CONNECTED 2).id) =
      some (mkPlayer "p2" PlayerState.CONNECTED 2) :=
  C10_thm exC10 "AB" 0 (mkPlayer "p2" PlayerState.CONNECTED 2)
    (by decide) (by decide) (by decide) (by decide)


lemma advance_usedWords (s : Session) (b : Bool) (c : String) :
    (advanceToNextPlayer s b c).usedWords = s.usedWords := (advance_frame s b c).1

lemma advance_failedCombos (s : Session) (b : Bool) (c : String) :
    (advanceToNextPlayer s b c).failedCombos = s.failedCombos := (advance_frame s b c).2.1

lemma checkWin_usedWords (s : Session) :
    (checkWinCondition s).2.1.usedWords = s.usedWords := (checkWin_frame s).2.2.2.2.1

lemma finishTurn_players (s1 : Session) (msgs : List Broadcast) (player : Player)
    (result : TurnResult) (word : String) (now : ℚ) :
    (finishTurn s1 msgs player result word now).1.players = s1.players :=
  (finishTurn_frame s1 msgs player result word now).1

lemma finishTurn_currentCombo (s1 : Session) (msgs : List Broadcast) (player : Player)
    (result : TurnResult) (word : String) (now : ℚ) :
    (finishTurn s1 msgs player result word now).1.currentCombo = s1.currentCombo :=
  (finishTurn_frame s1 msgs player result word now).2.1

lemma finishTurn_currentTurnPlayerId (s1 : Session) (msgs : List Broadcast)
    (player : Player) (result : TurnResult) (word : String) (now : ℚ) :
    (finishTurn s1 msgs player result word now).1.currentTurnPlayerId =
      s1.currentTurnPlayerId :=
  (finishTurn_frame s1 msgs player result word now).2.2.1

lemma finishTurn_roundStartPlayerId (s1 : Session) (msgs : List Broadcast)
    (player : Player) (result : TurnResult) (word : String) (now : ℚ) :
    (finishTurn s1 msgs player result word now).1.roundStartPlayerId =
      s1.roundStartPlayerId :=
  (finishTurn_frame s1 msgs player result word now).2.2.2.1

lemma finishTurn_usedWords (s1 : Session) (msgs : List Broadcast) (player : Player)
    (result : TurnResult) (word : String) (now : ℚ) :
    (finishTurn s1 msgs player result word now).1.usedWords = s1.usedWords :=
  (finishTurn_frame s1 msgs player result word now).2.2.2.2.1

lemma finishTurn_failedCombos (s1 : Session) (msgs : List Broadcast) (player : Player)
    (result : TurnResult) (word : String) (now : ℚ) :
    (finishTurn s1 msgs player result word now).1.failedCombos = s1.failedCombos :=
  (finishTurn_frame s1 msgs player result word now).2.2.2.2.2

lemma processTurnResult_usedWords (s : Session) (player : Player) (result : TurnResult)
    (word newCombo : String) (now : ℚ) :
    s.usedWords ⊆ (processTurnResult s player result word newCombo now).1.usedWords := by
  unfold processTurnResult
  cases result with
  | CORRECT =>
    dsimp only
    rw [finishTurn_usedWords, advance_usedWords]
    exact Finset.subset_insert _ _
  | TIMEOUT =>
    dsimp only
    rw [finishTurn_usedWords, advance_usedWords]
  | WRONG =>
    dsimp only
    rw [finishTurn_usedWords]
  | ALREADY_USED =>
    dsimp only
    rw [finishTurn_usedWords]

lemma handleTurnSubmit_usedWords (wordSet : Finset String) (s : Session)
    (pid word newCombo : String) (now : ℚ) :
    s.usedWords ⊆ (handleTurnSubmit wordSet s pid word newCombo now).1.usedWords := by
  unfold handleTurnSubmit
  by_cases h1 : s.phase ≠ GamePhase.PLAYING
  · rw [if_pos h1]
  · rw [if_neg h1]
    by_cases h2 : pid ≠ s.currentTurnPlayerId
    · rw [if_pos h2]
    · rw [if_neg h2]
      cases hp : findPlayer s pid with
      | none => exact Finset.Subset.refl _
      | some p =>
        dsimp only
        by_cases h3 : p.state ≠ PlayerState.ALIVE
        · rw [if_pos h3]
        · rw [if_neg h3]
          by_cases h4 : validateWord wordSet word s.currentCombo s.usedWords =
              TurnResult.WRONG ∨
              validateWord wordSet word s.currentCombo s.usedWords =
              TurnResult.ALREADY_USED
          · rw [if_pos h4]
          · rw [if_neg h4]
            exact processTurnResult_usedWords _ _ _ _ _ _

lemma handleTimeout_usedWords (s : Session) (newCombo : String) (now : ℚ) :
    s.usedWords ⊆ (handleTimeout s newCombo now).1.usedWords := by
  unfold handleTimeout
  dsimp only
  cases hp : findPlayer { s with timerRunning := false } s.currentTurnPlayerId with
  | none => exact Finset.Subset.refl _
  | some p =>
    exact processTurnResult_usedWords { s with timerRunning := false } p
      TurnResult.TIMEOUT "" newCombo now

lemma handleTurnInput_usedWords (s : Session) (pid input : String) :
    (handleTurnInput s pid input).1.usedWords = s.usedWords := by
  unfold handleTurnInput
  by_cases h1 : s.phase ≠ GamePhase.PLAYING
  · rw [if_pos h1]
  · rw [if_neg h1]
    by_cases h2 : pid ≠ s.currentTurnPlayerId
    · rw [if_pos h2]
    · rw [if_neg h2]
      cases hp : findPlayer s pid with
      | none => rfl
      | some p =>
        dsimp only
        by_cases h3 : p.state ≠ PlayerState.ALIVE
        · rw [if_pos h3]
        · rw [if_neg h3]

lemma setPlayerReady_usedWords (s : Session) (pid : String) (ready : Bool) :
    (setPlayerReady s pid ready).1.usedWords = s.usedWords := by
  unfold setPlayerReady
  cases hp : findPlayer s pid with
  | none => rfl
  | some p => rfl

lemma removePlayer_usedWords (s : Session) (pid newCombo : String) :
    (removePlayer s pid newCombo).1.usedWords = s.usedWords := by
  unfold removePlayer
  cases hp : findPlayer s pid with
  | none => rfl
  | some player =>
    dsimp only
    repeat' split
    all_goals simp [checkWin_usedWords, advance_usedWords]

lemma startGame_usedWords (s : Session) (combo : String) (now : ℚ)
    (hcs : canStartGame s = true) :
    (startGame s combo now).2.1.usedWords = ∅ := by
  unfold startGame
  rw [if_neg (by simp [hcs])]
  dsimp only
  split <;> rfl

/-- C8 (amended): `usedWords` is empty right after a successful
`start()` and right after `returnToLobby()`, and the turn-processing
operations only grow it; a mid-PLAYING `startGame()` (which the code
does not phase-guard) is the only PLAYING-phase operation that can
clear it. -/
theorem C8_thm (wordSet : Finset String) (s : Session)
    (pid word input newCombo : String) (now : ℚ) (ready : Bool) (combo : String) :
    ((startGame s combo now).1 = true → (startGame s combo now).2.1.usedWords = ∅) ∧
    (returnToLobby s).1.usedWords = ∅ ∧
    s.usedWords ⊆ (handleTurnInput s pid input).1.usedWords ∧
    s.usedWords ⊆ (handleTurnSubmit wordSet s pid word newCombo now).1.usedWords ∧
    s.usedWords ⊆ (handleTimeout s newCombo now).1.usedWords ∧
    s.usedWords ⊆ (removePlayer s pid newCombo).1.usedWords ∧
    s.usedWords ⊆ (setPlayerReady s pid ready).1.usedWords := by
  refine ⟨?_, rfl, ?_, ?_, ?_, ?_, ?_⟩
  · intro hsucc
    exact startGame_usedWords s combo now (canStart_of_startGame_success s combo now hsucc)
  · rw [handleTurnInput_usedWords]
  · exact handleTurnSubmit_usedWords wordSet s pid word newCombo now
  · exact handleTimeout_usedWords s newCombo now
  · rw [removePlayer_usedWords]
  · rw [setPlayerReady_usedWords]

theorem C8_counterexample :
    exC8.phase = GamePhase.PLAYING ∧
    (startGame exC8 "AB" 0).1 = true ∧
    (startGame exC8 "AB" 0).2.1.phase = GamePhase.PLAYING ∧
    "FOO" ∈ exC8.usedWords ∧
    ¬ "FOO" ∈ (startGame exC8 "AB" 0).2.1.usedWords := by decide

theorem C8_witness :
    ((startGame exC10 "AB" 0).2.1.usedWords = ∅) ∧
    (returnToLobby exC10).1.usedWords = ∅ ∧
    exC10.usedWords ⊆ (handleTimeout exC10 "NEW" 0).1.usedWords :=
  ⟨(C8_thm ∅ exC10 "p" "w" "i" "NEW" 0 true "AB").1 (by decide),
   (C8_thm ∅ exC10 "p" "w" "i" "NEW" 0 true "AB").2.1,
   (C8_thm ∅ exC10 "p" "w" "i" "NEW" 0 true "AB").2.2.2.2.1⟩


lemma timeoutMutation_id (q : Player) : (timeoutMutation q).id = q.id := by
  unfold timeoutMutation
  dsimp only
  split_ifs <;> rfl

lemma timeoutMutation_lives (q : Player) : (timeoutMutation q).lives = q.lives - 1 := by
  unfold timeoutMutation
  dsimp only
  split_ifs <;> rfl

lemma timeoutMutation_input (q : Player) : (timeoutMutation q).currentInput = "" := by
  unfold timeoutMutation
  rfl

lemma timeoutMutation_state (q : Player) :
    (timeoutMutation q).state =
      (if q.lives - 1 ≤ 0 then PlayerState.ELIMINATED else q.state) := by
  unfold timeoutMutation
  dsimp only
  split_ifs <;> rfl

lemma advance_find?_cleared (s : Session) (b : Bool) (c pid : String) (q : Player)
    (hq : s.players.find? (fun r => r.id == pid) = some q)
    (hinput : q.currentInput = "") :
    (advanceToNextPlayer s b c).players.find? (fun r => r.id == pid) = some q := by
  unfold advanceToNextPlayer
  split_ifs with h0
  · exact hq
  · cases hscan : nextAliveScan s (advanceStart s) with
    | none => exact hq
    | some nid =>
      dsimp only
      unfold updatePlayer
      rw [find?_id_map _ _ (fun r => by by_cases h : r.id = nid <;> simp [h]) pid, hq]
      simp only [Option.map_some']
      congr 1
      by_cases h : q.id = nid
      · rw [if_pos h]
        cases q
        simp_all
      · rw [if_neg h]

/-- C4: processing a TIMEOUT for the current ALIVE player records the
expiring combo into `failedCombos`, decrements that player's lives,
eliminates them exactly when the lives reach 0, clears their transient
input, and advances the turn without forcing a combo rotation. -/
theorem C4_thm (s : Session) (newCombo : String) (now : ℚ) (p : Player)
    (hph : s.phase = GamePhase.PLAYING)
    (hp : findPlayer s s.currentTurnPlayerId = some p)
    (hal : p.state = PlayerState.ALIVE) (hlv : 1 ≤ p.lives) :
    (handleTimeout s newCombo now).1.failedCombos =
      insert s.currentCombo s.failedCombos ∧
    (findPlayer (handleTimeout s newCombo now).1 p.id).map (fun q => q.lives) =
      some (p.lives - 1) ∧
    (findPlayer (handleTimeout s newCombo now).1 p.id).map (fun q => q.currentInput) =
      some "" ∧
    ((findPlayer (handleTimeout s newCombo now).1 p.id).map (fun q => q.state) =
        some PlayerState.ELIMINATED ↔ p.lives - 1 = 0) ∧
    (handleTimeout s newCombo now).1.currentCombo =
      (advanceToNextPlayer (timeoutMid s p) false newCombo).currentCombo ∧
    (handleTimeout s newCombo now).1.currentTurnPlayerId =
      (advanceToNextPlayer (timeoutMid s p) false newCombo).currentTurnPlayerId ∧
    (handleTimeout s newCombo now).1.roundStartPlayerId =
      (advanceToNextPlayer (timeoutMid s p) false newCombo).roundStartPlayerId := by
  have hpfind : s.players.find? (fun r => r.id == s.currentTurnPlayerId) = some p := hp
  have hpid2 : p.id = s.currentTurnPlayerId := by
    have h := List.find?_some hpfind
    simpa using h
  have hp0 : findPlayer { s with timerRunning := false } s.currentTurnPlayerId = some p := hp
  have hred : (handleTimeout s newCombo now).1 =
      (finishTurn (advanceToNextPlayer (timeoutMid s p) false newCombo)
        (if p.lives - 1 ≤ 0 then
          [broadcastToGame (timeoutMid s p).players
            (ServerMessage.PLAYER_ELIMINATED p.id)]
         else [])
        p TurnResult.TIMEOUT "" now).1 := by
    unfold handleTimeout
    dsimp only
    rw [hp0]
    rfl
  have hfmid : (timeoutMid s p).players.find? (fun r => r.id == p.id) =
      some (timeoutMutation p) := by
    unfold timeoutMid
    dsimp only
    unfold updatePlayer
    rw [find?_id_map _ _ (fun r => by by_cases h : r.id = p.id <;> simp [h, timeoutMutation_id])
      p.id]
    have hsp : s.players.find? (fun r => r.id == p.id) = some p := by
      rw [hpid2]
      exact hp
    rw [hsp]
    simp

  have hfadv : (advanceToNextPlayer (timeoutMid s p) false newCombo).players.find?
      (fun r => r.id == p.id) = some (timeoutMutation p) :=
    advance_find?_cleared _ _ _ _ _ hfmid (timeoutMutation_input p)
  refine ⟨?_, ?_, ?_, ?_, ?_, ?_, ?_⟩
  · rw [hred, finishTurn_failedCombos, advance_failedCombos]
    rfl
  · rw [hred]
    unfold findPlayer
    rw [finishTurn_players, hfadv, Option.map_some', timeoutMutation_lives]
  · rw [hred]
    unfold findPlayer
    rw [finishTurn_players, hfadv, Option.map_some', timeoutMutation_input]
  · rw [hred]
    unfold findPlayer
    rw [finishTurn_players, hfadv, Option.map_some', timeoutMutation_state]
    constructor
    · intro h
      by_cases hc : p.lives - 1 ≤ 0
      · omega
      · rw [if_neg hc] at h
        rw [hal] at h
        exact absurd (Option.some.inj h) (by intro hcon; exact PlayerState.noConfusion hcon)
    · intro h
      rw [if_pos (by omega)]
  · rw [hred, finishTurn_currentCombo]
  · rw [hred, finishTurn_currentTurnPlayerId]
  · rw [hred, finishTurn_roundStartPlayerId]

theorem C4_witness :
    (handleTimeout exC4 "NEW" 0).1.failedCombos =
      insert exC4.currentCombo exC4.failedCombos ∧
    (findPlayer (handleTimeout exC4 "NEW" 0).1 "p1").map (fun q => q.lives) =
      some ((1 : Int) - 1) ∧
    (findPlayer (handleTimeout exC4 "NEW" 0).1 "p1").map (fun q => q.currentInput) =
      some "" ∧
    ((findPlayer (handleTimeout exC4 "NEW" 0).1 "p1").map (fun q => q.state) =
        some PlayerState.ELIMINATED ↔ (1 : Int) - 1 = 0) ∧
    (handleTimeout exC4 "NEW" 0).1.currentCombo =
      (advanceToNextPlayer (timeoutMid exC4 (mkPlayer "p1" PlayerState.ALIVE 1))
        false "NEW").currentCombo ∧
    (handleTimeout exC4 "NEW" 0).1.currentTurnPlayerId =
      (advanceToNextPlayer (timeoutMid exC4 (mkPlayer "p1" PlayerState.ALIVE 1))
        false "NEW").currentTurnPlayerId ∧
    (handleTimeout exC4 "NEW" 0).1.roundStartPlayerId =
      (advanceToNextPlayer (timeoutMid exC4 (mkPlayer "p1" PlayerState.ALIVE 1))
        false "NEW").roundStartPlayerId :=
  C4_thm exC4 "NEW" 0 (mkPlayer "p1" PlayerState.ALIVE 1)
    (by decide) (by decide) (by decide) (by decide)


lemma exists_probe (start i len : Nat) (hi : i < len) :
    ∃ k, k < len ∧ (start + k) % len = i := by
  have hlen : 0 < len := by omega
  have hr : start % len < len := Nat.mod_lt _ hlen
  refine ⟨(i + len - start % len) % len, Nat.mod_lt _ hlen, ?_⟩
  rw [Nat.add_mod_mod]
  have hd := Nat.div_add_mod start len
  have hx : start + (i + len - start % len) =
      (i + len) + len * (start / len) := by omega
  rw [hx, Nat.add_mul_mod_self_left, Nat.add_mod_right, Nat.mod_eq_of_lt hi]

lemma nextAliveScan_sound (s : Session) (start : Nat) (nid : String)
    (h : nextAliveScan s start = some nid) :
    ∃ q, s.players.find? (fun r => r.id == nid) = some q ∧
      q.state = PlayerState.ALIVE := by
  unfold nextAliveScan at h
  rcases List.findSome?_eq_some_iff.mp h with ⟨l1, a, l2, hsplit, ha, hprev⟩
  cases hg : (s.players.map (fun p => p.id)).get?
      ((start + a) % (s.players.map (fun p => p.id)).length) with
  | none =>
    simp only [hg] at ha
    exact Option.noConfusion ha
  | some pid0 =>
    simp only [hg] at ha
    cases hf : s.players.find? (fun p => p.id == pid0) with
    | none =>
      simp only [hf] at ha
      exact Option.noConfusion ha
    | some q =>
      simp only [hf] at ha
      by_cases hA : q.state = PlayerState.ALIVE
      · rw [if_pos hA] at ha
        obtain rfl : pid0 = nid := Option.some.inj ha
        exact ⟨q, hf, hA⟩
      · rw [if_neg hA] at ha
        exact Option.noConfusion ha

lemma nextAliveScan_none_no_alive (s : Session) (start : Nat)
    (hnd : (playerIdList s.players).Nodup)
    (h : nextAliveScan s start = none) :
    ∀ p ∈ s.players, p.state ≠ PlayerState.ALIVE := by
  intro p hp hA
  rcases List.mem_iff_get.mp hp with ⟨⟨i, hi⟩, hgetp⟩
  rcases exists_probe start i s.players.length hi with ⟨k, hk, hki⟩
  unfold nextAliveScan at h
  have hfk := List.findSome?_eq_none.mp h k
    (by
      rw [List.mem_range, List.length_map]
      exact hk)
  simp only [List.length_map] at hfk
  have hget : (s.players.map (fun p => p.id)).get? ((start + k) % s.players.length) =
      some p.id := by
    rw [hki, List.get?_map, List.get?_eq_get hi, hgetp]
    rfl
  simp only [hget] at hfk
  have hfind : s.players.find? (fun r => r.id == p.id) = some p :=
    find?_self_of_nodup s.players p hnd hp
  simp only [hfind, if_pos hA] at hfk
  exact Option.noConfusion hfk


lemma id_injective_of_nodup (l : List Player) (hnd : (playerIdList l).Nodup)
    (p q : Player) (hp : p ∈ l) (hq : q ∈ l) (h : p.id = q.id) : p = q := by
  have h1 := find?_self_of_nodup l p hnd hp
  have h2 := find?_self_of_nodup l q hnd hq
  rw [h] at h1
  rw [h1] at h2
  exact Option.some.inj h2

lemma advance_cases (s : Session) (b : Bool) (c : String) :
    (advanceToNextPlayer s b c = s ∧ nextAliveScan s (advanceStart s) = none) ∨
    (∃ nid, nextAliveScan s (advanceStart s) = some nid ∧
      (advanceToNextPlayer s b c).players =
        updatePlayer s.players nid (fun p => { p with currentInput := "" }) ∧
      (advanceToNextPlayer s b c).currentTurnPlayerId = nid) := by
  unfold advanceToNextPlayer
  split_ifs with h0
  · left
    exact ⟨rfl, nextAliveScan_empty s (List.length_eq_zero.mp h0) _⟩
  · cases hscan : nextAliveScan s (advanceStart s) with
    | none => left; exact ⟨rfl, rfl⟩
    | some nid => right; exact ⟨nid, rfl, rfl, rfl⟩

lemma checkWin_true_session (s : Session) (hw : (checkWinCondition s).1 = true) :
    (checkWinCondition s).2.1 =
      { s with timerRunning := false, phase := GamePhase.GAME_OVER } := by
  unfold checkWinCondition endGame at *
  split_ifs at hw ⊢ <;> first | rfl | exact Bool.noConfusion hw

lemma checkWin_false_session (s : Session) (hw : ¬ (checkWinCondition s).1 = true) :
    (checkWinCondition s).2.1 = s := by
  unfold checkWinCondition at *
  split_ifs at hw ⊢ <;> first | rfl | exact absurd rfl hw

lemma checkWin_inv (s3 : Session) (hnd : NodupIds s3) (hlv : LivesInv s3)
    (hsafe : (checkWinCondition s3).1 = true ∨ TimerInv s3) :
    Inv (checkWinCondition s3).2.1 := by
  by_cases hw : (checkWinCondition s3).1 = true
  · rw [checkWin_true_session s3 hw]
    refine ⟨hnd, hlv, ?_⟩
    intro ht
    exact absurd ht (by simp)
  · rw [checkWin_false_session s3 hw]
    rcases hsafe with h | h
    · exact absurd h hw
    · exact ⟨hnd, hlv, h⟩

lemma aliveCount_zero_of_no_alive (s : Session)
    (h : ∀ p ∈ s.players, p.state ≠ PlayerState.ALIVE) : aliveCount s = 0 := by
  unfold aliveCount alivePlayers
  rw [List.length_eq_zero, List.filter_eq_nil]
  intro a ha
  simp [h a ha]

lemma advance_inv_post (s : Session) (b : Bool) (c : String)
    (hnd : NodupIds s) (hlv : LivesInv s) :
    NodupIds (advanceToNextPlayer s b c) ∧ LivesInv (advanceToNextPlayer s b c) ∧
    ((checkWinCondition (advanceToNextPlayer s b c)).1 = true ∨
      ∀ q ∈ (advanceToNextPlayer s b c).players,
        q.id = (advanceToNextPlayer s b c).currentTurnPlayerId → 1 ≤ q.lives) := by
  rcases advance_cases s b c with ⟨heq, hscan⟩ | ⟨nid, hscan, hpl, hcur⟩
  · rw [heq]
    refine ⟨hnd, hlv, ?_⟩
    by_cases hemp : s.players.length = 0
    · right
      intro q hq
      rw [List.length_eq_zero.mp hemp] at hq
      cases hq
    · left
      have hno := nextAliveScan_none_no_alive s _ hnd hscan
      have hac : aliveCount s = 0 := aliveCount_zero_of_no_alive s hno
      unfold checkWinCondition
      split_ifs with h1 h2
      · rfl
      · rfl
      · exfalso
        by_cases hl1 : s.players.length = 1
        · exact h1 ⟨hl1, hac⟩
        · exact h2 ⟨by omega, by omega⟩
  · rcases nextAliveScan_sound s _ nid hscan with ⟨q0, hfq0, hq0A⟩
    have hq0mem := List.mem_of_find?_eq_some hfq0
    have hq0id : q0.id = nid := by
      have h := List.find?_some hfq0
      simpa using h
    have hndA : NodupIds (advanceToNextPlayer s b c) := by
      unfold NodupIds
      rw [hpl, playerIdList_updatePlayer s.players nid
        (fun p => { p with currentInput := "" }) (fun p => rfl)]
      exact hnd
    refine ⟨hndA, ?_, ?_⟩
    · intro p hp
      rw [hpl] at hp
      unfold updatePlayer at hp
      rcases List.mem_map.mp hp with ⟨o, ho, rfl⟩
      have hok := hlv o ho
      by_cases h : o.id = nid
      · rw [if_pos h]
        exact hok
      · rw [if_neg h]
        exact hok
    · right
      intro p hp hid
      rw [hcur] at hid
      rw [hpl] at hp
      unfold updatePlayer at hp
      rcases List.mem_map.mp hp with ⟨o, ho, rfl⟩
      have hoid : o.id = nid := by
        by_cases h : o.id = nid
        · exact h
        · rw [if_neg h] at hid
          exact absurd hid h
      have hoq0 : o = q0 := id_injective_of_nodup s.players hnd o q0 ho hq0mem
        (by rw [hoid, hq0id])
      have hlives : 1 ≤ o.lives := by
        rw [hoq0]
        exact (hlv q0 hq0mem).1 hq0A
      by_cases h : o.id = nid
      · rw [if_pos h]
        exact hlives
      · rw [if_neg h]
        exact hlives

lemma finishTurn_inv (s1 : Session) (msgs : List Broadcast) (player : Player)
    (result : TurnResult) (word : String) (now : ℚ)
    (hnd : NodupIds s1) (hlv : LivesInv s1)
    (hsafe : (checkWinCondition s1).1 = true ∨
      ∀ q ∈ s1.players, q.id = s1.currentTurnPlayerId → 1 ≤ q.lives) :
    Inv (finishTurn s1 msgs player result word now).1 := by
  unfold finishTurn startTurnTimer
  dsimp only
  by_cases hw : (checkWinCondition s1).1 = true
  · rw [if_pos hw, checkWin_true_session s1 hw]
    refine ⟨hnd, hlv, ?_⟩
    intro ht
    exact absurd ht (by simp)
  · rw [if_neg hw, checkWin_false_session s1 hw]
    rcases hsafe with h | h
    · exact absurd h hw
    · refine ⟨hnd, hlv, ?_⟩
      intro _ q hq hqid
      exact h q hq hqid

lemma updatePlayer_nodup (l : List Player) (pid : String) (f : Player → Player)
    (hf : ∀ p, (f p).id = p.id) (hnd : (playerIdList l).Nodup) :
    (playerIdList (updatePlayer l pid f)).Nodup := by
  rw [playerIdList_updatePlayer _ _ _ hf]
  exact hnd

lemma advance_then_finish_inv (sM : Session) (b : Bool) (c : String)
    (msgs : List Broadcast) (player : Player) (result : TurnResult)
    (word : String) (now : ℚ) (hnd : NodupIds sM) (hlv : LivesInv sM) :
    Inv (finishTurn (advanceToNextPlayer sM b c) msgs player result word now).1 := by
  have h := advance_inv_post sM b c hnd hlv
  exact finishTurn_inv _ _ player result word now h.1 h.2.1 h.2.2

lemma processTurnResult_inv (s : Session) (player : Player)
    (result : TurnResult) (word newCombo : String) (now : ℚ)
    (hnd : NodupIds s) (hlv : LivesInv s)
    (hres : result = TurnResult.CORRECT ∨ result = TurnResult.TIMEOUT)
    (hpl : result = TurnResult.TIMEOUT →
      ∀ q ∈ s.players, q.id = player.id → 1 ≤ q.lives) :
    Inv (processTurnResult s player result word newCombo now).1 := by
  rcases hres with rfl | rfl
  · unfold processTurnResult
    dsimp only
    apply advance_then_finish_inv
    · exact updatePlayer_nodup s.players player.id
        (fun p => { p with score := p.score + 1, currentInput := "" }) (fun p => rfl) hnd
    · intro p hp
      have hp2 : p ∈ s.players.map (fun o =>
          if o.id = player.id then { o with score := o.score + 1, currentInput := "" }
          else o) := hp
      rcases List.mem_map.mp hp2 with ⟨o, ho, rfl⟩
      by_cases h : o.id = player.id
      · rw [if_pos h]
        exact hlv o ho
      · rw [if_neg h]
        exact hlv o ho
  · unfold processTurnResult
    dsimp only
    have hpl2 := hpl rfl
    apply advance_then_finish_inv
    · exact updatePlayer_nodup s.players player.id timeoutMutation timeoutMutation_id hnd
    · intro p hp
      have hp2 : p ∈ s.players.map (fun o =>
          if o.id = player.id then timeoutMutation o else o) := hp
      rcases List.mem_map.mp hp2 with ⟨o, ho, rfl⟩
      by_cases h : o.id = player.id
      · rw [if_pos h]
        have holives : 1 ≤ o.lives := hpl2 o ho h
        constructor
        · intro hA
          rw [timeoutMutation_state] at hA
          rw [timeoutMutation_lives]
          by_cases hc : o.lives - 1 ≤ 0
          · rw [if_pos hc] at hA
            exact absurd hA.symm (by intro hcon; exact PlayerState.noConfusion hcon)
          · omega
        · rw [timeoutMutation_lives]
          omega
      · rw [if_neg h]
        exact hlv o ho


lemma validateWord_ne_timeout (wordSet : Finset String) (word combo : String)
    (used : Finset String) :
    validateWord wordSet word combo used ≠ TurnResult.TIMEOUT := by
  unfold validateWord
  intro h
  by_cases h1 : word = "" <;> by_cases h2 : strToUpper word ∈ used <;>
    by_cases h3 : strIncludes (strToUpper word) (strToUpper combo) <;>
      by_cases h4 : strToUpper word ∈ wordSet <;> simp_all

lemma playerIdList_filter_nodup (l : List Player) (f : Player → Bool)
    (hnd : (playerIdList l).Nodup) : (playerIdList (l.filter f)).Nodup :=
  List.Nodup.sublist (List.Sublist.map _ (List.filter_sublist _)) hnd

lemma mapSet_nodup (l : List Player) (q : Player)
    (hnd : (playerIdList l).Nodup) : (playerIdList (mapSet l q)).Nodup := by
  unfold mapSet
  split_ifs with h
  · rw [playerIdList_map l (fun p => if p.id = q.id then q else p)
      (fun p => by by_cases hh : p.id = q.id <;> simp [hh])]
    exact hnd
  · unfold playerIdList
    rw [List.map_append, List.nodup_append]
    refine ⟨hnd, List.nodup_singleton _, ?_⟩
    intro x hx hx2
    simp only [List.map_cons, List.map_nil, List.mem_singleton] at hx2
    subst hx2
    rcases List.mem_map.mp hx with ⟨o, ho, hoid⟩
    apply h
    rw [List.any_eq_true]
    exact ⟨o, ho, by simp [hoid]⟩

lemma mapSet_mem (l : List Player) (q p : Player) (hp : p ∈ mapSet l q) :
    p = q ∨ p ∈ l := by
  unfold mapSet at hp
  split_ifs at hp with h
  · rcases List.mem_map.mp hp with ⟨o, ho, rfl⟩
    by_cases hh : o.id = q.id
    · left
      rw [if_pos hh]
    · right
      rw [if_neg hh]
      exact ho
  · rcases List.mem_append.mp hp with h1 | h2
    · right
      exact h1
    · left
      simpa using h2

lemma removePlayer_tail_inv (s2 : Session) (pid newCombo : String)
    (hnd : NodupIds s2) (hlv : LivesInv s2) (htm : TimerInv s2) :
    Inv ((if s2.phase = GamePhase.PLAYING then
           ((checkWinCondition (if s2.currentTurnPlayerId = pid
               then advanceToNextPlayer s2 false newCombo else s2)).2.1,
            (checkWinCondition (if s2.currentTurnPlayerId = pid
               then advanceToNextPlayer s2 false newCombo else s2)).2.2)
         else (s2, ([] : List Broadcast))).1) := by
  by_cases hph : s2.phase = GamePhase.PLAYING
  · rw [if_pos hph]
    dsimp only
    by_cases hcur : s2.currentTurnPlayerId = pid
    · rw [if_pos hcur]
      have hadv := advance_inv_post s2 false newCombo hnd hlv
      apply checkWin_inv _ hadv.1 hadv.2.1
      rcases hadv.2.2 with h | h
      · exact Or.inl h
      · exact Or.inr (fun _ q hq hqid => h q hq hqid)
    · rw [if_neg hcur]
      exact checkWin_inv s2 hnd hlv (Or.inr htm)
  · rw [if_neg hph]
    exact ⟨hnd, hlv, htm⟩

lemma inv_init (id name hostId : String) : Inv (GameSession.new id name hostId) := by
  refine ⟨?_, ?_, ?_⟩
  · unfold NodupIds GameSession.new playerIdList
    simp
  · intro p hp
    simp [GameSession.new] at hp
  · intro ht
    exact absurd ht (by simp [GameSession.new])

lemma inv_step (wordSet : Finset String) (s s' : Session)
    (hinv : Inv s) (hstep : Step wordSet s s') : Inv s' := by
  obtain ⟨hnd, hlv, htm⟩ := hinv
  cases hstep with
  | addPlayer id name =>
    unfold addPlayer
    split_ifs with h1 h2
    · exact ⟨hnd, hlv, htm⟩
    · exact ⟨hnd, hlv, htm⟩
    · dsimp only
      refine ⟨?_, ?_, ?_⟩
      · exact mapSet_nodup _ _ hnd
      · intro p hp
        rcases mapSet_mem _ _ _ hp with rfl | hp2
        · exact ⟨fun _ => by norm_num [createPlayer, DEFAULT_LIVES],
            by norm_num [createPlayer, DEFAULT_LIVES]⟩
        · exact hlv p hp2
      · intro ht p hp hpid
        rcases mapSet_mem _ _ _ hp with rfl | hp2
        · norm_num [createPlayer, DEFAULT_LIVES]
        · exact htm ht p hp2 hpid
  | removePlayer pid newCombo =>
    unfold removePlayer
    cases hp : findPlayer s pid with
    | none => exact ⟨hnd, hlv, htm⟩
    | some player =>
      dsimp only
      apply removePlayer_tail_inv
      case hnd =>
        split
        · split
          · exact updatePlayer_nodup _ _ _ (fun q => rfl)
              (playerIdList_filter_nodup _ _ hnd)
          · exact playerIdList_filter_nodup _ _ hnd
        · exact playerIdList_filter_nodup _ _ hnd
      case hlv =>
        split
        · split
          · rename_i newHost hhead
            intro q hq
            rcases List.mem_map.mp hq with ⟨o, ho, rfl⟩
            have ho2 := hlv o (List.mem_of_mem_filter ho)
            by_cases h : o.id = newHost.id
            · rw [if_pos h]
              exact ho2
            · rw [if_neg h]
              exact ho2
          · intro q hq
            exact hlv q (List.mem_of_mem_filter hq)
        · intro q hq
          exact hlv q (List.mem_of_mem_filter hq)
      case htm =>
        split
        · split
          · rename_i newHost hhead
            intro ht q hq hqid
            rcases List.mem_map.mp hq with ⟨o, ho, rfl⟩
            by_cases h : o.id = newHost.id
            · rw [if_pos h] at hqid ⊢
              exact htm ht o (List.mem_of_mem_filter ho) hqid
            · rw [if_neg h] at hqid ⊢
              exact htm ht o (List.mem_of_mem_filter ho) hqid
          · intro ht q hq hqid
            exact htm ht q (List.mem_of_mem_filter hq) hqid
        · intro ht q hq hqid
          exact htm ht q (List.mem_of_mem_filter hq) hqid
  | setPlayerReady pid ready =>
    unfold setPlayerReady
    cases hp : findPlayer s pid with
    | none => exact ⟨hnd, hlv, htm⟩
    | some p =>
      dsimp only
      refine ⟨?_, ?_, ?_⟩
      · exact updatePlayer_nodup s.players pid _ (fun q => rfl) hnd
      · intro q hq
        have hq2 : q ∈ s.players.map (fun o => if o.id = pid then
            { o with state := if ready then PlayerState.READY else PlayerState.CONNECTED }
            else o) := hq
        rcases List.mem_map.mp hq2 with ⟨o, ho, rfl⟩
        by_cases h : o.id = pid
        · rw [if_pos h]
          refine ⟨?_, (hlv o ho).2⟩
          intro hA
          exfalso
          by_cases hr : ready <;> simp [hr] at hA
        · rw [if_neg h]
          exact hlv o ho
      · intro ht q hq hqid
        have hq2 : q ∈ s.players.map (fun o => if o.id = pid then
            { o with state := if ready then PlayerState.READY else PlayerState.CONNECTED }
            else o) := hq
        rcases List.mem_map.mp hq2 with ⟨o, ho, rfl⟩
        by_cases h : o.id = pid
        · rw [if_pos h] at hqid ⊢
          exact htm ht o ho hqid
        · rw [if_neg h] at hqid ⊢
          exact htm ht o ho hqid
  | startGame combo now =>
    unfold startGame
    split_ifs with h1
    · dsimp only
      have hcs : canStartGame s = true := by simpa using h1
      cases hfind : (s.players.map startMutation).find?
          (fun p => p.state == PlayerState.ALIVE) with
      | none =>
        exfalso
        have h2 : (MIN_PLAYERS : Nat) ≤
            (s.players.filter (fun p => p.state == PlayerState.READY)).length := by
          simpa [canStartGame] using hcs
        have hpos : 0 <
            (s.players.filter (fun p => p.state == PlayerState.READY)).length := by
          unfold MIN_PLAYERS at h2
          omega
        rcases List.exists_mem_of_length_pos hpos with ⟨p, hpf⟩
        have hmem := List.mem_of_mem_filter hpf
        have hready : p.state = PlayerState.READY := by
          have h := (List.mem_filter.mp hpf).2
          simpa using h
        have hAlive : (startMutation p).state = PlayerState.ALIVE := by
          unfold startMutation
          rw [if_pos hready]
        have hnone := List.find?_eq_none.mp hfind (startMutation p)
          (List.mem_map_of_mem _ hmem)
        rw [hAlive] at hnone
        simp at hnone
      | some q =>
        have hqmem : q ∈ s.players.map startMutation := List.mem_of_find?_eq_some hfind
        have hqA : q.state = PlayerState.ALIVE := by
          have h := List.find?_some hfind
          simpa using h
        have hnd1 : (playerIdList (s.players.map startMutation)).Nodup := by
          rw [playerIdList_map _ _ startMutation_id]
          exact hnd
        have hlv1 : ∀ p ∈ s.players.map startMutation,
            (p.state = PlayerState.ALIVE → 1 ≤ p.lives) ∧ 0 ≤ p.lives := by
          intro p hp
          rcases List.mem_map.mp hp with ⟨o, ho, rfl⟩
          unfold startMutation
          by_cases h : o.state = PlayerState.READY
          · rw [if_pos h]
            exact ⟨fun _ => by norm_num [DEFAULT_LIVES], by norm_num [DEFAULT_LIVES]⟩
          · rw [if_neg h]
            exact hlv o ho
        refine ⟨hnd1, fun p hp => hlv1 p hp, ?_⟩
        intro ht p hp hpid
        have hpq : p = q := id_injective_of_nodup _ hnd1 p q hp hqmem hpid
        rw [hpq]
        exact (hlv1 q hqmem).1 hqA
    · exact ⟨hnd, hlv, htm⟩
  | handleTurnInput pid input =>
    unfold handleTurnInput
    split_ifs with h1 h2
    · exact ⟨hnd, hlv, htm⟩
    · exact ⟨hnd, hlv, htm⟩
    · cases hp : findPlayer s pid with
      | none => exact ⟨hnd, hlv, htm⟩
      | some p =>
        dsimp only
        split_ifs with h3
        · exact ⟨hnd, hlv, htm⟩
        · refine ⟨?_, ?_, ?_⟩
          · exact updatePlayer_nodup s.players pid _ (fun q => rfl) hnd
          · intro q hq
            have hq2 : q ∈ s.players.map (fun o => if o.id = pid then
                { o with currentInput := input } else o) := hq
            rcases List.mem_map.mp hq2 with ⟨o, ho, rfl⟩
            by_cases h : o.id = pid
            · rw [if_pos h]
              exact hlv o ho
            · rw [if_neg h]
              exact hlv o ho
          · intro ht q hq hqid
            have hq2 : q ∈ s.players.map (fun o => if o.id = pid then
                { o with currentInput := input } else o) := hq
            rcases List.mem_map.mp hq2 with ⟨o, ho, rfl⟩
            by_cases h : o.id = pid
            · rw [if_pos h] at hqid ⊢
              exact htm ht o ho hqid
            · rw [if_neg h] at hqid ⊢
              exact htm ht o ho hqid
  | handleTurnSubmit pid word newCombo now =>
    unfold handleTurnSubmit
    split_ifs with h1 h2
    · exact ⟨hnd, hlv, htm⟩
    · exact ⟨hnd, hlv, htm⟩
    · cases hp : findPlayer s pid with
      | none => exact ⟨hnd, hlv, htm⟩
      | some p =>
        dsimp only
        split_ifs with h3 h4
        · exact ⟨hnd, hlv, htm⟩
        · exact ⟨hnd, hlv, htm⟩
        · have hr := validateWord_ne_timeout wordSet word s.currentCombo s.usedWords
          cases hv : validateWord wordSet word s.currentCombo s.usedWords with
          | CORRECT =>
            exact processTurnResult_inv s p TurnResult.CORRECT word newCombo now hnd hlv
              (Or.inl rfl) (fun hcon => TurnResult.noConfusion hcon)
          | WRONG => exact absurd (Or.inl hv) h4
          | ALREADY_USED => exact absurd (Or.inr hv) h4
          | TIMEOUT => exact absurd hv hr
  | handleTimeout newCombo now ht =>
    unfold handleTimeout
    dsimp only
    cases hp : findPlayer { s with timerRunning := false } s.currentTurnPlayerId with
    | none =>
      refine ⟨hnd, hlv, ?_⟩
      intro ht2
      exact absurd ht2 (by simp)
    | some p =>
      have hpid : p.id = s.currentTurnPlayerId := by
        have h := List.find?_some
          (show s.players.find? (fun r => r.id == s.currentTurnPlayerId) = some p from hp)
        simpa using h
      apply processTurnResult_inv { s with timerRunning := false } p TurnResult.TIMEOUT
        "" newCombo now hnd hlv (Or.inr rfl)
      intro _ q hq hqid
      exact htm ht q hq (hqid.trans hpid)
  | returnToLobby =>
    unfold returnToLobby
    dsimp only
    refine ⟨?_, ?_, ?_⟩
    · unfold NodupIds
      dsimp only
      rw [playerIdList_map s.players (fun p =>
        { p with
          state := PlayerState.CONNECTED
          lives := DEFAULT_LIVES
          score := 0
          currentInput := "" }) (fun p => rfl)]
      exact hnd
    · intro p hp
      rcases List.mem_map.mp hp with ⟨o, ho, rfl⟩
      exact ⟨fun _ => by norm_num [DEFAULT_LIVES], by norm_num [DEFAULT_LIVES]⟩
    · intro ht
      exact absurd ht (by simp)
  | cleanup =>
    refine ⟨hnd, hlv, ?_⟩
    intro ht
    exact absurd ht (by simp [cleanup])
  | setComboChangePerRound b =>
    exact ⟨hnd, hlv, htm⟩

lemma inv_reachable (wordSet : Finset String) (s : Session)
    (h : Reachable wordSet s) : Inv s := by
  induction h with
  | init id name hostId => exact inv_init id name hostId
  | step s s2 hr hstep ih => exact inv_step wordSet s s2 ih hstep

/-- C9: in every reachable session state, every ALIVE player holds at
least one life and no player's lives are negative. -/
theorem C9_thm (wordSet : Finset String) (s : Session)
    (h : Reachable wordSet s) :
    ∀ p ∈ s.players, (p.state = PlayerState.ALIVE → 1 ≤ p.lives) ∧ 0 ≤ p.lives :=
  (inv_reachable wordSet s h).2.1

theorem C9_witness :
    ((createPlayer "a" "Alice" true).state = PlayerState.ALIVE →
      1 ≤ (createPlayer "a" "Alice" true).lives) ∧
    0 ≤ (createPlayer "a" "Alice" true).lives :=
  C9_thm ∅ (addPlayer (GameSession.new "g" "game" "h") "a" "Alice").2
    (Reachable.step _ _ (Reachable.init "g" "game" "h")
      (Step.addPlayer _ "a" "Alice"))
    (createPlayer "a" "Alice" true) (by decide)


lemma charsLeading_iff (n h : List Char) : charsLeading n h = true ↔ n <+: h := by
  induction n generalizing h with
  | nil => simp [charsLeading]
  | cons a as ih =>
    cases h with
    | nil => simp [charsLeading]
    | cons b bs =>
      rw [List.cons_prefix_cons]
      simp [charsLeading, ih]

lemma charsContain_iff (n h : List Char) : charsContain n h = true ↔ n <:+: h := by
  induction h with
  | nil => simp [charsContain, List.isEmpty_iff]
  | cons c cs ih =>
    simp only [charsContain, Bool.or_eq_true, charsLeading_iff, ih]
    exact (List.infix_cons_iff).symm

lemma strIncludes_iff_infix (hay needle : String) :
    strIncludes hay needle = true ↔ needle.data <:+: hay.data :=
  charsContain_iff needle.data hay.data

end SonaMang
